import Mathlib

set_option maxRecDepth 100000

/-!
Verification of the EXP-Track OCR serving layer.

This file shallowly embeds the Python sources of the repository:
* `python_ocr_server/main.py` — the FastAPI OCR server: engine-pool
  initialization (`lifespan`), round-robin dispatch (`recognize_text`),
  image preprocessing (`preprocess_image`), and result extraction
  (`parse_rapidocr_result`, `_run_ocr_sync`);
* `detect_numbers_rapidocr_autoscale.py` — proportional ROI mapping
  (`calculate_roi_coordinates`) and per-ROI OCR (`ocr_roi`).

Machine `uint8` pixels are modelled as `Nat` (all source pixels come from
8-bit images, so values are ≤ 255); Python floats are modelled as exact
rationals `ℚ`; fallible steps return `Except String`.
-/

namespace ExpTrack

/-! ### Dispatcher (main.py, `recognize_text`, lines 273–290)

The endpoint reads the shared cursor and advances it:
`engine_idx = current_engine_idx;
 current_engine_idx = (current_engine_idx + 1) % len(ocr_engines)`.
`n` stands for the pool size `len(ocr_engines)`. -/

/-- One dispatch step: returns the selected engine index (the cursor as
read) and the new cursor value `(c + 1) % n`. -/
def dispatchStep (n c : Nat) : Nat × Nat :=
  (c, (c + 1) % n)

/-- The list of engine indices selected by `k` sequential requests starting
from cursor value `c`, threading the cursor through `dispatchStep`. -/
def dispatchSeq (n c : Nat) : Nat → List Nat
  | 0 => []
  | k + 1 =>
    let s := dispatchStep n c
    s.1 :: dispatchSeq n s.2 k

/-! ### Engine-pool initialization (main.py, `lifespan`, lines 91–100)

The startup loop appends each loaded engine to the global `ocr_engines`
list in submission order; the first `future.result()` that raises aborts
the loop, leaving the engines appended so far in the global list.  A
load attempt is modelled as `Except String α` (`.error` = the engine
constructor raised). -/

/-- Pool initialization: folds over the load results in order, appending
successful engines; the first failure stops the loop and is reported as
the second component, with the engines appended so far as the pool. -/
def initEnginePool {α : Type} : List (Except String α) → List α × Option String
  | [] => ([], none)
  | Except.ok e :: rest =>
    let r := initEnginePool rest
    (e :: r.1, r.2)
  | Except.error s :: _ => ([], some s)

/-- The engines that load successfully before the first failed load. -/
def loadedBeforeFailure {α : Type} (loads : List (Except String α)) : List α :=
  (loads.takeWhile (fun l => l matches Except.ok _)).filterMap
    (fun l => match l with | Except.ok e => some e | Except.error _ => none)

/-! ### Region mapper (detect_numbers_rapidocr_autoscale.py, lines 16–51) -/

/-- A proportional ROI definition `(x_min_ratio, x_max_ratio, y_min_ratio,
y_max_ratio)`, ratios in `[0, 1]` of the image dimensions. -/
structure RoiDef where
  x_min_ratio : ℚ
  x_max_ratio : ℚ
  y_min_ratio : ℚ
  y_max_ratio : ℚ
deriving DecidableEq

/-- An absolute pixel rectangle, the value of one entry of the dict built
by `calculate_roi_coordinates`. -/
structure AbsRoi where
  x_min : ℤ
  x_max : ℤ
  y_min : ℤ
  y_max : ℤ
deriving DecidableEq

/-- One ROI's absolute coordinates: `int(ratio * dimension)` for each of
the four ratios (Python `int()` on a nonnegative float truncates, i.e.
takes the floor). -/
def calcRoi (d : RoiDef) (width height : Nat) : AbsRoi :=
  { x_min := ⌊d.x_min_ratio * width⌋
    x_max := ⌊d.x_max_ratio * width⌋
    y_min := ⌊d.y_min_ratio * height⌋
    y_max := ⌊d.y_max_ratio * height⌋ }

/-- The fixed proportional layout table `ROI_PROPORTIONS` (reference size
522×255), decimal literals as exact rationals. -/
def ROI_PROPORTIONS : List (String × RoiDef) :=
  [ ("shift", ⟨0,          249/1000,   251/1000,   4902/10000⟩),
    ("ins",   ⟨249/1000,   5000/10000, 251/1000,   4902/10000⟩),
    ("home",  ⟨5000/10000, 749/1000,   251/1000,   4902/10000⟩),
    ("pup",   ⟨749/1000,   9981/10000, 251/1000,   4902/10000⟩),
    ("ctrl",  ⟨0,          249/1000,   7686/10000, 9961/10000⟩),
    ("del",   ⟨249/1000,   5000/10000, 7686/10000, 9961/10000⟩),
    ("end",   ⟨5000/10000, 749/1000,   7686/10000, 9961/10000⟩),
    ("pdn",   ⟨749/1000,   9981/10000, 7686/10000, 9961/10000⟩) ]

/-- The mapper `calculate_roi_coordinates(img_width, img_height)`: maps
every entry of `ROI_PROPORTIONS` to its absolute rectangle for this image
size. -/
def calculate_roi_coordinates (img_width img_height : Nat) :
    List (String × AbsRoi) :=
  ROI_PROPORTIONS.map (fun p => (p.1, calcRoi p.2 img_width img_height))

/-! ### Preprocessing stage (main.py, `preprocess_image`, lines 183–219)

Pixels are `uint8` values modelled as `Nat` (always ≤ 255 for arrays
decoded from images); the OpenCV primitives the pipeline calls are
modelled with exact rational arithmetic. -/

/-- A NumPy array as passed to `preprocess_image`: 1-, 2-, or
3-dimensional integer pixel data. -/
inductive NpImg where
  | d1 (v : List Nat)
  | d2 (m : List (List Nat))
  | d3 (t : List (List (List Nat)))
deriving DecidableEq

/-- All pixel values of an array, flattened. -/
def NpImg.pixels : NpImg → List Nat
  | NpImg.d1 v => v
  | NpImg.d2 m => m.flatten
  | NpImg.d3 t => (t.map List.flatten).flatten

/-- Model of `cv2.cvtColor(image, cv2.COLOR_RGB2GRAY)`: converts an
`h×w×3` RGB array to grayscale with OpenCV's fixed-point weights
`(4899·R + 9617·G + 1868·B + 8192) >> 14`; raises (here `.error`) when a
pixel does not have exactly 3 channels. -/
def cvtColorRGB2GRAY (t : List (List (List Nat))) :
    Except String (List (List Nat)) :=
  t.mapM (fun row => row.mapM (fun px =>
    match px with
    | [r, g, b] => Except.ok ((4899 * r + 9617 * g + 1868 * b + 8192) / 16384)
    | _ => Except.error "cvtColor: invalid number of channels"))

/-- The cubic convolution kernel of OpenCV's `INTER_CUBIC` (`A = −0.75`),
as a function of the nonnegative sample distance. -/
def cubicKernel (x : ℚ) : ℚ :=
  if x ≤ 1 then (5/4 * x - 9/4) * x ^ 2 + 1
  else if x < 2 then ((-3/4 * x + 15/4) * x - 6) * x + 3
  else 0

/-- Border-replicating index clamp for interpolation sampling. -/
def clampIdx (n : Nat) (i : ℤ) : Nat := min i.toNat (n - 1)

/-- Pixel lookup in a 2-D array (row-major, defaulting out of range —
interpolation only samples clamped, hence valid, indices). -/
def pixAt (m : List (List Nat)) (y x : Nat) : Nat := (m.getD y []).getD x 0

/-- Rounding of an interpolated value to `uint8`: round half to even (as
OpenCV's `cvRound`) then clamp to `[0, 255]` (`saturate_cast<uchar>`). -/
def roundSat (q : ℚ) : Nat :=
  let f : ℤ := ⌊q⌋
  let r : ℚ := q - f
  let z : ℤ :=
    if r < 1/2 then f
    else if 1/2 < r then f + 1
    else if f % 2 = 0 then f else f + 1
  (max 0 (min z 255)).toNat

/-- Model of `cv2.resize(gray, None, fx=2, fy=2,
interpolation=cv2.INTER_CUBIC)`: doubles both dimensions; each output
pixel is the cubic convolution of a 4×4 source neighbourhood with
replicated borders, source coordinate `(d + 0.5)/2 − 0.5` for output
coordinate `d`.  Exact-rational model of OpenCV's fixed-point
arithmetic (interpolated values may differ from OpenCV's by one unit of
rounding; no theorem below depends on them). -/
def resize2x (m : List (List Nat)) : List (List Nat) :=
  let h := m.length
  let w := (m.headD []).length
  (List.range (2 * h)).map (fun (dy : Nat) =>
    (List.range (2 * w)).map (fun (dx : Nat) =>
      let fy : ℚ := ((dy : ℚ) + 1/2) / 2 - 1/2
      let fx : ℚ := ((dx : ℚ) + 1/2) / 2 - 1/2
      let sy : ℤ := ⌊fy⌋
      let sx : ℤ := ⌊fx⌋
      let ry : ℚ := fy - sy
      let rx : ℚ := fx - sx
      let val : ℚ :=
        ((List.range 4).map (fun (j : Nat) =>
          ((List.range 4).map (fun (i : Nat) =>
            cubicKernel |ry - ((j : ℚ) - 1)| * cubicKernel |rx - ((i : ℚ) - 1)| *
              (pixAt m (clampIdx h (sy + ((j : ℤ) - 1)))
                       (clampIdx w (sx + ((i : ℤ) - 1))) : ℚ))).sum)).sum
      roundSat val))

/-- Model of the comparison `np.mean(gray) < 127`: with `N` pixels the
float comparison `sum / N < 127` is exactly `sum < 127 · N`; for an empty
array the NumPy mean is NaN and the comparison is false, matching
`0 < 0`. -/
def meanLt127 (pix : List Nat) : Bool := pix.sum < 127 * pix.length

/-- Inversion `255 - gray` of a `uint8` grayscale array (all pixels are
≤ 255). -/
def invertImg (m : List (List Nat)) : List (List Nat) :=
  m.map (fun row => row.map (fun v => 255 - v))

/-- Binarization `cv2.threshold(gray, t, 255, cv2.THRESH_BINARY)` at
threshold `t`: `255` where the pixel exceeds `t`, `0` otherwise. -/
def threshBinary (t : Nat) (m : List (List Nat)) : List (List Nat) :=
  m.map (fun row => row.map (fun v => if t < v then 255 else 0))

/-- One step of the Otsu threshold search at candidate `i`: skip the
degenerate splits (one class empty), otherwise replace the incumbent when
the between-class variance `(s0·n1 − s1·n0)² / (n0·n1)` (common factor
`N²` dropped) is strictly larger — so, as in OpenCV, the first maximum
wins.  The accumulator carries `(threshold, variance numerator, variance
denominator)`. -/
def otsuStep (pix : List Nat) (best : Option (Nat × Nat × Nat)) (i : Nat) :
    Option (Nat × Nat × Nat) :=
  let N := pix.length
  let n0 := (pix.filter (fun v => v ≤ i)).length
  let s0 := (pix.filter (fun v => v ≤ i)).sum
  if n0 = 0 ∨ n0 = N then best
  else
    let n1 := N - n0
    let s1 := pix.sum - s0
    let num := ((s0 * n1 : ℤ) - (s1 * n0 : ℤ)).natAbs ^ 2
    let den := n0 * n1
    match best with
    | none => some (i, num, den)
    | some (bi, bnum, bden) =>
      if bnum * den < num * bden then some (i, num, den) else some (bi, bnum, bden)

/-- Otsu's threshold selection as in `cv2.THRESH_OTSU`: search thresholds
`0 … 255` with `otsuStep` (exact-rational variance comparison instead of
OpenCV's floats), defaulting to `0` when every split is degenerate. -/
def otsuThreshold (pix : List Nat) : Nat :=
  (((List.range 256).foldl (otsuStep pix) none).map Prod.fst).getD 0

/-- The body of the `try` block of `preprocess_image` (main.py lines
192–216): grayscale conversion for 3-D input (1-D input fails at the
`h, w = gray.shape` unpacking), conditional 2× upscale when the height is
below 100 (raising on an empty source, as `cv2.resize` does), brightness-
based inversion, and Otsu binarization.  Each `match` on `Except`
propagates the first raised error, like the Python exceptions. -/
def preprocessSteps (image : NpImg) : Except String (List (List Nat)) :=
  match (match image with
         | NpImg.d3 t => cvtColorRGB2GRAY t
         | NpImg.d2 m => Except.ok m
         | NpImg.d1 _ => Except.error "cannot unpack shape into h, w") with
  | Except.error e => Except.error e
  | Except.ok gray =>
    let h := gray.length
    let w := (gray.headD []).length
    match (if h < 100 then
             if h = 0 ∨ w = 0 then Except.error "resize: empty source image"
             else Except.ok (resize2x gray)
           else Except.ok gray) with
    | Except.error e => Except.error e
    | Except.ok gray2 =>
      let gray3 := if meanLt127 gray2.flatten then invertImg gray2 else gray2
      Except.ok (threshBinary (otsuThreshold gray3.flatten) gray3)

/-- The function `preprocess_image(image)`: runs the pipeline and, if any
step raises, returns the original unprocessed image (the `except` handler
of main.py lines 217–219). -/
def preprocess_image (image : NpImg) : NpImg :=
  match preprocessSteps image with
  | Except.ok binary => NpImg.d2 binary
  | Except.error _ => image

/-! ### Result extraction (main.py, lines 137–181 and 221–263) -/

/-- A single OCR text detection with bounding box (the `TextBox` pydantic
model, main.py lines 137–141). -/
structure TextBox where
  box : List (List ℚ)
  text : String
  score : ℚ
deriving DecidableEq

/-- One raw item of a legacy RapidOCR result list.  An item with at least
3 fields carries `(box, text, score)` — `extra` counts any fields beyond
the first three — while `short k` is a malformed item with only `k < 3`
fields. -/
inductive RawItem where
  | full (box : List (List ℚ)) (text : String) (score : ℚ) (extra : Nat)
  | short (k : Fin 3)
deriving DecidableEq

/-- The parser `parse_rapidocr_result(result)` (main.py lines 157–181):
falsy/empty input yields `([], "")`; otherwise each item with at least 3
fields contributes a `TextBox` and its text while shorter items are
silently dropped, and the raw text is the texts joined with single
spaces. -/
def parse_rapidocr_result (result : List RawItem) : List TextBox × String :=
  match result with
  | [] => ([], "")
  | _ =>
    let boxes := result.filterMap (fun item =>
      match item with
      | RawItem.full b t s _ => some (TextBox.mk b t s)
      | RawItem.short _ => none)
    let texts := result.filterMap (fun item =>
      match item with
      | RawItem.full _ t _ _ => some t
      | RawItem.short _ => none)
    (boxes, String.intercalate " " texts)

/-- The `RapidOCROutput` object returned by the engine: `txts`, `boxes`
and `scores` attributes, each possibly `None`. -/
structure RapidOCROutput where
  txts : Option (List String)
  boxes : Option (List (List (List ℚ)))
  scores : Option (List ℚ)

/-- The extraction loop of `_run_ocr_sync` (main.py lines 237–263): when
the output is present, iterate over `txts` with index `i`, keeping the
entries whose index is within both `boxes` and `scores` (`None`
attributes count as empty); the raw text joins the kept texts with single
spaces. -/
def extractOutput (o : Option RapidOCROutput) : List TextBox × String :=
  match o with
  | none => ([], "")
  | some out =>
    let txts := out.txts.getD []
    let boxCoords := out.boxes.getD []
    let scores := out.scores.getD []
    let boxes := txts.enum.filterMap (fun p =>
      match boxCoords[p.1]?, scores[p.1]? with
      | some b, some s => some (TextBox.mk b p.2 s)
      | _, _ => none)
    let texts := txts.enum.filterMap (fun p =>
      match boxCoords[p.1]?, scores[p.1]? with
      | some _, some _ => some p.2
      | _, _ => none)
    (boxes, String.intercalate " " texts)

/-- The worker body `_run_ocr_sync(image, engine_idx)` (main.py lines
221–263): looks up the worker's dedicated engine (an out-of-range index
raises, modelled as `none`), preprocesses the image, invokes the engine
with `text_score=0.75`, and extracts the structured result. -/
def runOcrSync (engines : List (NpImg → ℚ → Option RapidOCROutput))
    (image : NpImg) (engineIdx : Nat) : Option (List TextBox × String) :=
  match engines[engineIdx]? with
  | none => none
  | some engine => some (extractOutput (engine (preprocess_image image) (3/4)))

/-! ### Per-ROI OCR (detect_numbers_rapidocr_autoscale.py, lines 54–78) -/

/-- The ROI dict entry used by `ocr_roi`: absolute integer pixel bounds. -/
structure RoiRect where
  x_min : Nat
  x_max : Nat
  y_min : Nat
  y_max : Nat

/-- The NumPy slice `img_array[y_min:y_max+1, x_min:x_max+1]`: keeps rows
`y_min … y_max` and columns `x_min … x_max`. -/
def cropRoi (img : List (List Nat)) (roi : RoiRect) : List (List Nat) :=
  ((img.drop roi.y_min).take (roi.y_max + 1 - roi.y_min)).map
    (fun row => (row.drop roi.x_min).take (roi.x_max + 1 - roi.x_min))

/-- Model of Python `str.isdigit` on a single character: true for the
characters whose Unicode `Numeric_Type` is Decimal or Digit.  This is
strictly wider than the decimal digits `0`–`9`: besides the common
decimal-digit blocks (ASCII, Arabic-Indic `٠`–`٩`, Devanagari `०`–`९`,
fullwidth `０`–`９`) it accepts non-decimal digit characters such as the
superscripts `¹ ² ³ ⁰ ⁴`–`⁹` and subscripts `₀`–`₉`.  The Unicode
standard lists further digit blocks; the theorems below use only the
predicate's behaviour on the blocks given here — in particular that it
is strictly wider than `0`–`9`. -/
def pyIsDigit (c : Char) : Bool :=
  c.isDigit
  || c = '¹' || c = '²' || c = '³'
  || c = '⁰' || ('⁴' ≤ c && c ≤ '⁹')
  || ('₀' ≤ c && c ≤ '₉')
  || ('٠' ≤ c && c ≤ '٩')
  || ('०' ≤ c && c ≤ '९')
  || ('０' ≤ c && c ≤ '９')

/-- The function `ocr_roi(engine, img_array, roi)`
(detect_numbers_rapidocr_autoscale.py lines 54–78): crops the ROI, runs
the engine, returns `""` when the result is `None` or its `txts` tuple is
falsy (absent or empty), else joins the texts and keeps only the
characters accepted by Python `str.isdigit` (modelled by `pyIsDigit`). -/
def ocr_roi (engine : List (List Nat) → Option RapidOCROutput)
    (img : List (List Nat)) (roi : RoiRect) : String :=
  match engine (cropRoi img roi) with
  | none => ""
  | some out =>
    match out.txts with
    | none => ""
    | some [] => ""
    | some ts => String.mk ((String.join ts).toList.filter pyIsDigit)

/-! ### Confidence gate (Result Parser / Validator)

The typed `/recognize/*` endpoints described by the spec are not part of
the provided sources (only the untyped `/ocr` endpoint is); the gate is
therefore modelled from the spec. -/

/-- Parse errors of the typed recognition endpoints. -/
inductive ParseError where
  | NoDigitsFound
  | OutOfRange
  | AmbiguousFormat
  | LowConfidence
deriving DecidableEq

/-- Modelled from the spec: the aggregate confidence — the mean score
across the detections accepted by the per-box cutoff (dual-threshold
policy, spec §4.5). -/
def aggregateOf (boxCutoff : ℚ) (dets : List TextBox) : ℚ :=
  let accepted := dets.filter (fun d => boxCutoff ≤ d.score)
  (accepted.map TextBox.score).sum / accepted.length

/-- Modelled from the spec: the typed-field confidence gate of the Result
Parser / Validator (spec §4.5, the `/recognize/*` endpoints missing from
the provided sources).  Detections below the per-box cutoff are excluded;
the mean score of the accepted detections is compared against the
result-level threshold; a strictly lower mean fails with `LowConfidence`
before any field parsing, otherwise the field parser runs on the accepted
detections. -/
def confidenceGate {α : Type} (boxCutoff threshold : ℚ)
    (dets : List TextBox) (parseField : List TextBox → Except ParseError α) :
    Except ParseError α :=
  let accepted := dets.filter (fun d => boxCutoff ≤ d.score)
  let aggregate := (accepted.map TextBox.score).sum / accepted.length
  if aggregate < threshold then Except.error ParseError.LowConfidence
  else parseField accepted

/-! ## Dispatcher lemmas -/

theorem dispatchSeq_eq_map (n : Nat) (hn : 0 < n) :
    ∀ (k c : Nat), c < n →
      dispatchSeq n c k = (List.range k).map (fun t => (c + t) % n) := by
  intro k
  induction k with
  | zero => intro c _; rfl
  | succ k ih =>
    intro c hc
    have h2 : (c + 1) % n < n := Nat.mod_lt _ hn
    rw [List.range_succ_eq_map]
    show c :: dispatchSeq n ((c + 1) % n) k = _
    rw [ih ((c + 1) % n) h2]
    simp only [List.map_cons, List.map_map]
    refine congrArg₂ List.cons ?_ ?_
    · show c = (c + 0) % n
      rw [Nat.add_zero, Nat.mod_eq_of_lt hc]
    · refine List.map_congr_left fun t _ => ?_
      show ((c + 1) % n + t) % n = (c + Nat.succ t) % n
      rw [Nat.mod_add_mod]
      exact congrArg (· % n) (by omega)

theorem count_in_range (i : Nat) : ∀ n, (List.range n).count i = if i < n then 1 else 0 := by
  intro n
  induction n with
  | zero => simp
  | succ n ih =>
    rw [List.range_succ, List.count_append, ih]
    rcases Nat.lt_trichotomy i n with h | h | h
    · simp [Nat.lt_succ_of_lt h, h, Nat.ne_of_lt h, List.count_singleton']
    · subst h
      simp [Nat.lt_succ_self, List.count_singleton']
    · simp [Nat.not_lt.mpr (Nat.le_of_lt h), Nat.not_lt.mpr (Nat.succ_le_of_lt h),
        Nat.ne_of_gt h, List.count_singleton']

theorem count_range_mod (n i : Nat) (hn : 0 < n) (hi : i < n) :
    ∀ m, ((List.range (m * n)).map (fun t => t % n)).count i = m := by
  intro m
  induction m with
  | zero => simp
  | succ m ih =>
    have hmn : (m + 1) * n = m * n + n := by ring
    rw [hmn, List.range_add, List.map_append, List.count_append, ih, List.map_map]
    have hmap : (List.range n).map ((fun t => t % n) ∘ (fun t => m * n + t)) = List.range n := by
      refine (List.map_congr_left fun t ht => ?_).trans (List.map_id' _)
      show (m * n + t) % n = t
      rw [Nat.add_comm, Nat.add_mul_mod_self_right]
      exact Nat.mod_eq_of_lt (List.mem_range.mp ht)
    rw [hmap, count_in_range, if_pos hi]

/-- C1: Round-robin fairness — starting from cursor 0, `m * n` sequential
submissions against a pool of `n ≥ 1` engines select every engine index
`i < n` exactly `m` times (the cursor is read and then incremented
modulo `n` on each submission). -/
theorem roundRobin_fair (n m i : Nat) (hn : 1 ≤ n) (hi : i < n) :
    (dispatchSeq n 0 (m * n)).count i = m := by
  rw [dispatchSeq_eq_map n hn (m * n) 0 hn]
  simp only [Nat.zero_add]
  exact count_range_mod n i hn hi m

theorem roundRobin_fair_witness :
    1 ≤ 2 ∧ 1 < 2 ∧ (dispatchSeq 2 0 (3 * 2)).count 1 = 3 :=
  ⟨by decide, by decide, roundRobin_fair 2 3 1 (by decide) (by decide)⟩

/-- C10: Dispatch-cursor invariant — for a pool of `n ≥ 1` engines, if the
shared cursor is in `[0, n)` before a request, the selected engine index
is in `[0, n)` and the cursor is again in `[0, n)` afterwards. -/
theorem dispatch_cursor_invariant (n c : Nat) (hn : 1 ≤ n) (hc : c < n) :
    (dispatchStep n c).1 < n ∧ (dispatchStep n c).2 < n :=
  ⟨hc, Nat.mod_lt _ hn⟩

theorem dispatch_cursor_invariant_witness :
    1 ≤ 4 ∧ 3 < 4 ∧ ((dispatchStep 4 3).1 < 4 ∧ (dispatchStep 4 3).2 < 4) :=
  ⟨by decide, by decide, dispatch_cursor_invariant 4 3 (by decide) (by decide)⟩

/-! ## Engine-pool initialization lemmas -/

/-- C2 counterexample: with two load attempts, the first succeeding and the
second raising, initialization fails — yet the pool retains the first
engine, so the pool state after a failed initialization is NOT empty. -/
theorem initPool_failure_counterexample :
    (initEnginePool [Except.ok 7, Except.error "load failed"]).2 = some "load failed" ∧
    (initEnginePool [Except.ok 7, Except.error "load failed"]).1 ≠ ([] : List Nat) := by
  constructor
  · rfl
  · decide

/-- C2 (amended): initialization either completes with all `n` engines
loaded, or fails with the first load error — in which case the pool
retains exactly the engines loaded before the first failure (possibly a
nonempty proper prefix), not necessarily no engines. -/
theorem initPool_atomicity (α : Type) (loads : List (Except String α)) :
    ((initEnginePool loads).2 = none →
      (initEnginePool loads).1.length = loads.length) ∧
    (∀ s, (initEnginePool loads).2 = some s →
      (initEnginePool loads).1 = loadedBeforeFailure loads) := by
  induction loads with
  | nil =>
    exact ⟨fun _ => rfl, fun s h => by simp [initEnginePool] at h⟩
  | cons head rest ih =>
    cases head with
    | ok e =>
      refine ⟨fun h => ?_, fun s h => ?_⟩
      · have := ih.1 h
        simp [initEnginePool, List.length_cons, this]
      · have := ih.2 s h
        simp [initEnginePool, loadedBeforeFailure, List.takeWhile_cons, List.filterMap_cons]
        simpa [loadedBeforeFailure] using this
    | error s' =>
      refine ⟨fun h => ?_, fun s h => ?_⟩
      · simp [initEnginePool] at h
      · simp [initEnginePool, loadedBeforeFailure, List.takeWhile_cons]

theorem initPool_atomicity_witness :
    (initEnginePool [Except.ok 7, Except.error "boom", Except.ok 9]).2 = some "boom" ∧
    (initEnginePool [Except.ok 7, Except.error "boom", Except.ok 9]).1
      = loadedBeforeFailure [Except.ok 7, Except.error "boom", Except.ok 9] :=
  ⟨rfl, (initPool_atomicity Nat _).2 "boom" rfl⟩

/-! ## Region-mapper lemmas -/

theorem floor_lt_floor_of_gap (a b : ℚ) (h : a + 1 ≤ b) : ⌊a⌋ < ⌊b⌋ := by
  have h1 : ⌊a + 1⌋ ≤ ⌊b⌋ := Int.floor_le_floor h
  rw [Int.floor_add_one] at h1
  omega

/-- C5 counterexample: on a 1×1 image, the actual `ROI_PROPORTIONS` table
yields degenerate rectangles (`x_min = x_max = 0` for `shift`), so the
claim does not hold for every positive width/height. -/
theorem roi_positive_counterexample :
    ¬ (∀ p ∈ calculate_roi_coordinates 1 1,
        p.2.x_min < p.2.x_max ∧ p.2.y_min < p.2.y_max) := by
  intro h
  have hm : ("shift", calcRoi ⟨0, 249/1000, 251/1000, 4902/10000⟩ 1 1)
      ∈ calculate_roi_coordinates 1 1 := by
    simp [calculate_roi_coordinates, ROI_PROPORTIONS]
  have := (h _ hm).1
  norm_num [calcRoi] at this

/-- C5 (amended): for every positive width and height and every ROI
definition with `x_min_ratio < x_max_ratio` and `y_min_ratio <
y_max_ratio`, provided each ratio gap spans at least one pixel
(`(x_max_ratio - x_min_ratio) * width ≥ 1` and analogously for y), the
mapper returns `x_min < x_max` and `y_min < y_max`, each coordinate being
`⌊ratio * dimension⌋`. -/
theorem calcRoi_positive (d : RoiDef) (w h : Nat) (hw : 0 < w) (hh : 0 < h)
    (hx : d.x_min_ratio < d.x_max_ratio) (hy : d.y_min_ratio < d.y_max_ratio)
    (hxg : 1 ≤ (d.x_max_ratio - d.x_min_ratio) * w)
    (hyg : 1 ≤ (d.y_max_ratio - d.y_min_ratio) * h) :
    ((calcRoi d w h).x_min < (calcRoi d w h).x_max ∧
     (calcRoi d w h).y_min < (calcRoi d w h).y_max) ∧
    ((calcRoi d w h).x_min = ⌊d.x_min_ratio * w⌋ ∧
     (calcRoi d w h).x_max = ⌊d.x_max_ratio * w⌋ ∧
     (calcRoi d w h).y_min = ⌊d.y_min_ratio * h⌋ ∧
     (calcRoi d w h).y_max = ⌊d.y_max_ratio * h⌋) := by
  refine ⟨⟨?_, ?_⟩, rfl, rfl, rfl, rfl⟩
  · apply floor_lt_floor_of_gap
    have hsub : (d.x_max_ratio - d.x_min_ratio) * w
        = d.x_max_ratio * w - d.x_min_ratio * w := sub_mul _ _ _
    linarith [hxg, hsub]
  · apply floor_lt_floor_of_gap
    have hsub : (d.y_max_ratio - d.y_min_ratio) * h
        = d.y_max_ratio * h - d.y_min_ratio * h := sub_mul _ _ _
    linarith [hyg, hsub]

theorem calcRoi_positive_witness :
    ((calcRoi ⟨0, 249/1000, 251/1000, 4902/10000⟩ 10 10).x_min
       < (calcRoi ⟨0, 249/1000, 251/1000, 4902/10000⟩ 10 10).x_max ∧
     (calcRoi ⟨0, 249/1000, 251/1000, 4902/10000⟩ 10 10).y_min
       < (calcRoi ⟨0, 249/1000, 251/1000, 4902/10000⟩ 10 10).y_max) ∧
    ((calcRoi ⟨0, 249/1000, 251/1000, 4902/10000⟩ 10 10).x_min
       = ⌊(0 : ℚ) * (10 : Nat)⌋ ∧
     (calcRoi ⟨0, 249/1000, 251/1000, 4902/10000⟩ 10 10).x_max
       = ⌊(249/1000 : ℚ) * (10 : Nat)⌋ ∧
     (calcRoi ⟨0, 249/1000, 251/1000, 4902/10000⟩ 10 10).y_min
       = ⌊(251/1000 : ℚ) * (10 : Nat)⌋ ∧
     (calcRoi ⟨0, 249/1000, 251/1000, 4902/10000⟩ 10 10).y_max
       = ⌊(4902/10000 : ℚ) * (10 : Nat)⌋) :=
  calcRoi_positive ⟨0, 249/1000, 251/1000, 4902/10000⟩ 10 10
    (by decide) (by decide) (by norm_num) (by norm_num) (by norm_num) (by norm_num)

theorem floor_nat_mul_bounds (k : Nat) (hk : 1 ≤ k) (x : ℚ) :
    (k : ℤ) * ⌊x⌋ ≤ ⌊(k : ℚ) * x⌋ ∧ ⌊(k : ℚ) * x⌋ ≤ (k : ℤ) * ⌊x⌋ + ((k : ℤ) - 1) := by
  have hk0 : (0 : ℚ) < (k : ℚ) := by exact_mod_cast hk
  constructor
  · rw [Int.le_floor]
    push_cast
    exact mul_le_mul_of_nonneg_left (Int.floor_le x) (le_of_lt hk0)
  · have : ⌊(k : ℚ) * x⌋ < (k : ℤ) * ⌊x⌋ + (k : ℤ) := by
      rw [Int.floor_lt]
      push_cast
      have hx : x < (⌊x⌋ : ℚ) + 1 := Int.lt_floor_add_one x
      calc (k : ℚ) * x < (k : ℚ) * ((⌊x⌋ : ℚ) + 1) :=
              (mul_lt_mul_left hk0).mpr hx
        _ = (k : ℚ) * (⌊x⌋ : ℚ) + (k : ℚ) := by ring
    omega

theorem floor_ratio_scaled (r : ℚ) (w k : Nat) (hk : 1 ≤ k) :
    (k : ℤ) * ⌊r * (w : ℚ)⌋ ≤ ⌊r * ((k * w : Nat) : ℚ)⌋ ∧
    ⌊r * ((k * w : Nat) : ℚ)⌋ ≤ (k : ℤ) * ⌊r * (w : ℚ)⌋ + ((k : ℤ) - 1) := by
  have hcast : r * ((k * w : Nat) : ℚ) = (k : ℚ) * (r * (w : ℚ)) := by
    push_cast
    ring
  rw [hcast]
  exact floor_nat_mul_bounds k hk (r * (w : ℚ))

/-- C6 counterexample: for the `shift` ROI of `ROI_PROPORTIONS`, scaling a
7×7 image by `k = 3` moves `x_max` by 2 pixels away from 3 times the
original coordinate — more than the claimed 1-pixel truncation error. -/
theorem roi_scaling_counterexample :
    ¬ (|(calcRoi ⟨0, 249/1000, 251/1000, 4902/10000⟩ (3 * 7) (3 * 7)).x_max
        - 3 * (calcRoi ⟨0, 249/1000, 251/1000, 4902/10000⟩ 7 7).x_max| ≤ 1) := by
  norm_num [calcRoi]

/-- C6 (amended): for every ROI definition, positive dimensions, and
integer scale factor `k ≥ 1`, each coordinate returned for the image
scaled by `k` in both dimensions differs from `k` times the original
coordinate by at most `k - 1` pixels (and never undershoots). -/
theorem calcRoi_scaling (d : RoiDef) (w h k : Nat) (hk : 1 ≤ k) :
    ((k : ℤ) * (calcRoi d w h).x_min ≤ (calcRoi d (k * w) (k * h)).x_min ∧
     (calcRoi d (k * w) (k * h)).x_min ≤ (k : ℤ) * (calcRoi d w h).x_min + ((k : ℤ) - 1)) ∧
    ((k : ℤ) * (calcRoi d w h).x_max ≤ (calcRoi d (k * w) (k * h)).x_max ∧
     (calcRoi d (k * w) (k * h)).x_max ≤ (k : ℤ) * (calcRoi d w h).x_max + ((k : ℤ) - 1)) ∧
    ((k : ℤ) * (calcRoi d w h).y_min ≤ (calcRoi d (k * w) (k * h)).y_min ∧
     (calcRoi d (k * w) (k * h)).y_min ≤ (k : ℤ) * (calcRoi d w h).y_min + ((k : ℤ) - 1)) ∧
    ((k : ℤ) * (calcRoi d w h).y_max ≤ (calcRoi d (k * w) (k * h)).y_max ∧
     (calcRoi d (k * w) (k * h)).y_max ≤ (k : ℤ) * (calcRoi d w h).y_max + ((k : ℤ) - 1)) :=
  ⟨floor_ratio_scaled d.x_min_ratio w k hk,
   floor_ratio_scaled d.x_max_ratio w k hk,
   floor_ratio_scaled d.y_min_ratio h k hk,
   floor_ratio_scaled d.y_max_ratio h k hk⟩

theorem calcRoi_scaling_witness :
    (3 : ℤ) * (calcRoi ⟨0, 249/1000, 251/1000, 4902/10000⟩ 7 7).x_max
      ≤ (calcRoi ⟨0, 249/1000, 251/1000, 4902/10000⟩ (3 * 7) (3 * 7)).x_max ∧
    (calcRoi ⟨0, 249/1000, 251/1000, 4902/10000⟩ (3 * 7) (3 * 7)).x_max
      ≤ (3 : ℤ) * (calcRoi ⟨0, 249/1000, 251/1000, 4902/10000⟩ 7 7).x_max + ((3 : ℤ) - 1) :=
  (calcRoi_scaling ⟨0, 249/1000, 251/1000, 4902/10000⟩ 7 7 3 (by decide)).2.1

/-! ## Preprocessing lemmas -/

theorem threshBinary_length (t : Nat) (m : List (List Nat)) :
    (threshBinary t m).length = m.length := by
  simp [threshBinary]

theorem invertImg_length (m : List (List Nat)) :
    (invertImg m).length = m.length := by
  simp [invertImg]

theorem resize2x_length (m : List (List Nat)) :
    (resize2x m).length = 2 * m.length := by
  simp only [resize2x, List.length_map, List.length_range]

theorem threshBinary_headD_length (t : Nat) (m : List (List Nat)) :
    ((threshBinary t m).headD []).length = (m.headD []).length := by
  cases m <;> simp [threshBinary]

theorem invertImg_headD_length (m : List (List Nat)) :
    ((invertImg m).headD []).length = (m.headD []).length := by
  cases m <;> simp [invertImg]

theorem headD_map_range (n : Nat) (hn : 0 < n) (F : Nat → List Nat) (d : List Nat) :
    ((List.range n).map F).headD d = F 0 := by
  cases n with
  | zero => omega
  | succ k =>
    rw [List.range_succ_eq_map]
    rfl

theorem resize2x_headD_length (m : List (List Nat)) (hm : 0 < m.length) :
    ((resize2x m).headD []).length = 2 * (m.headD []).length := by
  simp only [resize2x]
  rw [headD_map_range (2 * m.length) (by omega)]
  simp only [List.length_map, List.length_range]

theorem preprocessSteps_d2_small (m : List (List Nat)) (h1 : m.length < 100)
    (h0 : ¬ (m.length = 0 ∨ (m.headD []).length = 0)) :
    preprocessSteps (NpImg.d2 m) =
      Except.ok (threshBinary
        (otsuThreshold (if meanLt127 (resize2x m).flatten
            then invertImg (resize2x m) else resize2x m).flatten)
        (if meanLt127 (resize2x m).flatten
            then invertImg (resize2x m) else resize2x m)) := by
  simp only [preprocessSteps]
  rw [if_pos h1, if_neg h0]

theorem preprocessSteps_d2_tall (m : List (List Nat)) (hh : 100 ≤ m.length) :
    preprocessSteps (NpImg.d2 m) =
      Except.ok (threshBinary
        (otsuThreshold (if meanLt127 m.flatten then invertImg m else m).flatten)
        (if meanLt127 m.flatten then invertImg m else m)) := by
  simp only [preprocessSteps]
  rw [if_neg (by omega : ¬ m.length < 100)]

/-- C4: Preprocessing failure policy — whenever any pipeline step raises,
`preprocess_image` returns the original unprocessed pixels unchanged; and
being a total function into `NpImg`, it never propagates the error to the
request. -/
theorem preprocess_failure_returns_original (image : NpImg) (e : String)
    (h : preprocessSteps image = Except.error e) :
    preprocess_image image = image := by
  unfold preprocess_image
  rw [h]

theorem preprocess_failure_returns_original_witness :
    preprocessSteps (NpImg.d1 [1, 2, 3]) = Except.error "cannot unpack shape into h, w" ∧
    preprocess_image (NpImg.d1 [1, 2, 3]) = NpImg.d1 [1, 2, 3] :=
  ⟨rfl, preprocess_failure_returns_original (NpImg.d1 [1, 2, 3]) _ rfl⟩

/-- C7 counterexample: on the 1×1 image of brightness 200, one application
of preprocessing binarizes to a 2×2 image (the small-height 2× upscale),
and a second application upscales again to 4×4 — so applying the pipeline
to its own output does not reproduce it. -/
theorem preprocess_not_idempotent :
    preprocess_image (preprocess_image (NpImg.d2 [[200]]))
      ≠ preprocess_image (NpImg.d2 [[200]]) := by
  have h1 := preprocessSteps_d2_small [[200]] (by norm_num) (by norm_num)
  set g1 := (if meanLt127 (resize2x [[200]]).flatten
      then invertImg (resize2x [[200]]) else resize2x [[200]]) with hg1
  set out1 := threshBinary (otsuThreshold g1.flatten) g1 with hout1
  have hlen_r : (resize2x [[200]]).length = 2 := by rw [resize2x_length]; rfl
  have hlen_g1 : g1.length = 2 := by
    rw [hg1]
    split
    · rw [invertImg_length, hlen_r]
    · exact hlen_r
  have hlen1 : out1.length = 2 := by rw [hout1, threshBinary_length, hlen_g1]
  have hw_r : ((resize2x [[200]]).headD []).length = 2 := by
    rw [resize2x_headD_length [[200]] (by norm_num)]; rfl
  have hw_g1 : (g1.headD []).length = 2 := by
    rw [hg1]
    split
    · rw [invertImg_headD_length]
      exact hw_r
    · exact hw_r
  have hw1 : (out1.headD []).length = 2 := by
    rw [hout1, threshBinary_headD_length]
    exact hw_g1
  have hpre1 : preprocess_image (NpImg.d2 [[200]]) = NpImg.d2 out1 := by
    unfold preprocess_image
    rw [h1]
  have h2 := preprocessSteps_d2_small out1 (by omega) (by rw [hlen1, hw1]; norm_num)
  set g2 := (if meanLt127 (resize2x out1).flatten
      then invertImg (resize2x out1) else resize2x out1) with hg2
  set out2 := threshBinary (otsuThreshold g2.flatten) g2 with hout2
  have hlen2 : out2.length = 4 := by
    rw [hout2, threshBinary_length, hg2]
    split
    · rw [invertImg_length, resize2x_length, hlen1]
    · rw [resize2x_length, hlen1]
  have hpre2 : preprocess_image (NpImg.d2 out1) = NpImg.d2 out2 := by
    unfold preprocess_image
    rw [h2]
  rw [hpre1, hpre2]
  intro heq
  have hinj : out2 = out1 := by injection heq
  rw [hinj, hlen1] at hlen2
  exact absurd hlen2 (by norm_num)

theorem threshBinary_mem (t : Nat) (m : List (List Nat)) :
    ∀ v ∈ (threshBinary t m).flatten, v = 0 ∨ v = 255 := by
  intro v hv
  rw [List.mem_flatten] at hv
  obtain ⟨row, hrow, hv⟩ := hv
  rw [threshBinary, List.mem_map] at hrow
  obtain ⟨srow, _, rfl⟩ := hrow
  rw [List.mem_map] at hv
  obtain ⟨x, _, rfl⟩ := hv
  by_cases h : t < x <;> simp [h]

theorem otsuStep_cases (pix : List Nat) (acc : Option (Nat × Nat × Nat)) (i : Nat) :
    otsuStep pix acc i = acc ∨
    (¬ ((pix.filter (fun v => v ≤ i)).length = 0 ∨
        (pix.filter (fun v => v ≤ i)).length = pix.length) ∧
     ∃ num den, otsuStep pix acc i = some (i, num, den)) := by
  rcases acc with _ | ⟨bi, bnum, bden⟩
  · simp only [otsuStep]
    split
    · exact Or.inl rfl
    · rename_i hdeg
      exact Or.inr ⟨hdeg, ⟨_, _, rfl⟩⟩
  · simp only [otsuStep]
    split
    · exact Or.inl rfl
    · rename_i hdeg
      split
      · exact Or.inr ⟨hdeg, ⟨_, _, rfl⟩⟩
      · exact Or.inl rfl

theorem otsuStep_fold_invariant (pix : List Nat) :
    ∀ (l : List Nat) (acc : Option (Nat × Nat × Nat)),
      (acc = none ∨ ∃ p : Nat × Nat × Nat, acc = some p ∧
        (pix.filter (fun v => v ≤ p.1)).length ≠ 0 ∧
        (pix.filter (fun v => v ≤ p.1)).length ≠ pix.length ∧ p.1 ≤ 255) →
      (∀ i ∈ l, i ≤ 255) →
      (l.foldl (otsuStep pix) acc = none ∨
       ∃ p : Nat × Nat × Nat, l.foldl (otsuStep pix) acc = some p ∧
        (pix.filter (fun v => v ≤ p.1)).length ≠ 0 ∧
        (pix.filter (fun v => v ≤ p.1)).length ≠ pix.length ∧ p.1 ≤ 255) := by
  intro l
  induction l with
  | nil => intro acc hacc _; exact hacc
  | cons i l ih =>
    intro acc hacc hl
    have hi : i ≤ 255 := hl i (List.mem_cons_self i l)
    have hl' : ∀ j ∈ l, j ≤ 255 := fun j hj => hl j (List.mem_cons_of_mem i hj)
    refine ih (otsuStep pix acc i) ?_ hl'
    rcases otsuStep_cases pix acc i with hcase | ⟨hdeg, num, den, hcase⟩
    · rw [hcase]
      exact hacc
    · push_neg at hdeg
      rw [hcase]
      exact Or.inr ⟨(i, num, den), rfl, hdeg.1, hdeg.2, hi⟩

theorem otsuThreshold_le_254 (pix : List Nat) (hle : ∀ v ∈ pix, v ≤ 255) :
    otsuThreshold pix ≤ 254 := by
  unfold otsuThreshold
  have hinv := otsuStep_fold_invariant pix (List.range 256) none (Or.inl rfl)
    (fun i hi => by have := List.mem_range.mp hi; omega)
  rcases hinv with h | ⟨p, hp, hp1, hp2, hp3⟩
  · rw [h]
    simp
  · rw [hp]
    simp only [Option.map_some', Option.getD_some]
    rcases Nat.lt_or_ge p.1 255 with h | h
    · omega
    · exfalso
      apply hp2
      have hp255 : p.1 = 255 := by omega
      rw [hp255]
      rw [List.filter_eq_self.mpr (fun a ha => by simp [hle a ha])]

theorem threshBinary_otsu_self (g : List (List Nat))
    (hb : ∀ v ∈ g.flatten, v = 0 ∨ v = 255) :
    threshBinary (otsuThreshold g.flatten) g = g := by
  have hle : ∀ v ∈ g.flatten, v ≤ 255 := fun v hv => by
    rcases hb v hv with h | h <;> omega
  have ht : otsuThreshold g.flatten ≤ 254 := otsuThreshold_le_254 _ hle
  unfold threshBinary
  refine (List.map_congr_left fun row hrow => ?_).trans (List.map_id' g)
  refine (List.map_congr_left fun v hv => ?_).trans (List.map_id' row)
  have hvmem : v ∈ g.flatten := List.mem_flatten.mpr ⟨row, hrow, hv⟩
  rcases hb v hvmem with h | h
  · subst h
    simp
  · subst h
    rw [if_pos (by omega)]

/-- C7 (amended): on 2-D input of height at least 100 (so the second pass
does not re-upscale) whose preprocessed output is majority-white (mean
brightness not below 127, so the second pass does not re-invert),
preprocessing is idempotent: re-binarizing its own binarized output
reproduces it exactly. -/
theorem preprocess_idempotent_binarized (m : List (List Nat))
    (hh : 100 ≤ m.length)
    (hmean : meanLt127 (preprocess_image (NpImg.d2 m)).pixels = false) :
    preprocess_image (preprocess_image (NpImg.d2 m)) = preprocess_image (NpImg.d2 m) := by
  have h1 := preprocessSteps_d2_tall m hh
  set g1 := (if meanLt127 m.flatten then invertImg m else m) with hg1
  set out1 := threshBinary (otsuThreshold g1.flatten) g1 with hout1
  have hpre1 : preprocess_image (NpImg.d2 m) = NpImg.d2 out1 := by
    unfold preprocess_image
    rw [h1]
  have hlen_g1 : g1.length = m.length := by
    rw [hg1]
    split
    · exact invertImg_length m
    · rfl
  have hlen1 : out1.length = m.length := by rw [hout1, threshBinary_length, hlen_g1]
  have hmean1 : meanLt127 out1.flatten = false := by
    rw [hpre1] at hmean
    simpa [NpImg.pixels] using hmean
  have hbin : ∀ v ∈ out1.flatten, v = 0 ∨ v = 255 := by
    rw [hout1]
    exact threshBinary_mem _ _
  have h2 := preprocessSteps_d2_tall out1 (by omega)
  have hif : (if meanLt127 out1.flatten then invertImg out1 else out1) = out1 := by
    rw [hmean1]
    exact if_neg (by simp)
  rw [hif] at h2
  rw [hpre1]
  show preprocess_image (NpImg.d2 out1) = NpImg.d2 out1
  unfold preprocess_image
  rw [h2, threshBinary_otsu_self out1 hbin]

theorem preprocess_idempotent_binarized_witness :
    100 ≤ (List.replicate 100 [255]).length ∧
    meanLt127 (preprocess_image (NpImg.d2 (List.replicate 100 [255]))).pixels = false ∧
    preprocess_image (preprocess_image (NpImg.d2 (List.replicate 100 [255])))
      = preprocess_image (NpImg.d2 (List.replicate 100 [255])) :=
  ⟨by decide, by decide,
   preprocess_idempotent_binarized (List.replicate 100 [255]) (by decide) (by decide)⟩

/-! ## Result-extraction lemmas -/

theorem parse_map_text (result : List RawItem) :
    (result.filterMap (fun item =>
      match item with
      | RawItem.full b t s _ => some (TextBox.mk b t s)
      | RawItem.short _ => none)).map TextBox.text
    = result.filterMap (fun item =>
      match item with
      | RawItem.full _ t _ _ => some t
      | RawItem.short _ => none) := by
  induction result with
  | nil => rfl
  | cons a l ih => cases a <;> simp [List.filterMap_cons, ih]

theorem extract_map_text (bc : List (List (List ℚ))) (sc : List ℚ) :
    ∀ l : List (Nat × String),
      (l.filterMap (fun p =>
        match bc[p.1]?, sc[p.1]? with
        | some b, some s => some (TextBox.mk b p.2 s)
        | _, _ => none)).map TextBox.text
      = l.filterMap (fun p =>
        match bc[p.1]?, sc[p.1]? with
        | some _, some _ => some p.2
        | _, _ => none) := by
  intro l
  induction l with
  | nil => rfl
  | cons a l ih =>
    rcases hb : bc[a.1]? with _ | b <;> rcases hs : sc[a.1]? with _ | s <;>
      simp [List.filterMap_cons, hb, hs, ih]

/-- C9: in both extraction paths — the legacy per-item parser
`parse_rapidocr_result` (which silently drops items with fewer than 3
fields) and the attribute-based extractor of `_run_ocr_sync` — the
`raw_text` equals the texts of the returned boxes joined with single
spaces in the same order, and the number of returned `TextBox` records
equals the number of joined text strings. -/
theorem raw_text_matches_boxes :
    (∀ result : List RawItem,
      (parse_rapidocr_result result).2
        = String.intercalate " " ((parse_rapidocr_result result).1.map TextBox.text) ∧
      (parse_rapidocr_result result).1.length
        = ((parse_rapidocr_result result).1.map TextBox.text).length) ∧
    (∀ (k : Fin 3) (result : List RawItem),
      parse_rapidocr_result (RawItem.short k :: result) = parse_rapidocr_result result) ∧
    (∀ o : Option RapidOCROutput,
      (extractOutput o).2
        = String.intercalate " " ((extractOutput o).1.map TextBox.text) ∧
      (extractOutput o).1.length
        = ((extractOutput o).1.map TextBox.text).length) := by
  refine ⟨fun result => ⟨?_, (List.length_map _ _).symm⟩,
          fun k result => ?_,
          fun o => ⟨?_, (List.length_map _ _).symm⟩⟩
  · cases result with
    | nil => rfl
    | cons a l =>
      simp only [parse_rapidocr_result]
      rw [parse_map_text]
  · cases result with
    | nil => rfl
    | cons b l =>
      simp only [parse_rapidocr_result, List.filterMap_cons]
  · cases o with
    | none => rfl
    | some out =>
      simp only [extractOutput]
      rw [extract_map_text]

/-! ## Per-ROI OCR lemmas -/

theorem ocr_roi_eq_match (engine : List (List Nat) → Option RapidOCROutput)
    (img : List (List Nat)) (roi : RoiRect) (out : RapidOCROutput)
    (he : engine (cropRoi img roi) = some out) :
    ocr_roi engine img roi =
      (match out.txts with
       | none => ""
       | some [] => ""
       | some ts => String.mk ((String.join ts).toList.filter pyIsDigit)) := by
  unfold ocr_roi
  rw [he]

/-- C8 counterexample: Python `str.isdigit` accepts the superscript `²`,
which is not a decimal digit; for an engine whose detected text is `"²"`,
`ocr_roi` returns `"²"`, so not every character of its result is a
decimal digit. -/
theorem ocr_roi_not_decimal :
    ¬ (∀ c ∈ (ocr_roi
        (fun _ => some (RapidOCROutput.mk (some ["²"]) none none))
        [[5]] (RoiRect.mk 0 0 0 0)).toList, c.isDigit) := by
  decide

/-- C8 (amended): every character of an `ocr_roi` result satisfies
Python's `str.isdigit` — a Unicode digit character, not necessarily a
decimal digit `0`–`9`; in particular, when the engine reports no
detections (a `None` result or an absent/empty `txts` tuple) it returns
the empty string rather than raising. -/
theorem ocr_roi_digits (engine : List (List Nat) → Option RapidOCROutput)
    (img : List (List Nat)) (roi : RoiRect) :
    (∀ c ∈ (ocr_roi engine img roi).toList, pyIsDigit c) ∧
    ((engine (cropRoi img roi) = none ∨
      (engine (cropRoi img roi)).bind RapidOCROutput.txts = none ∨
      (engine (cropRoi img roi)).bind RapidOCROutput.txts = some []) →
      ocr_roi engine img roi = "") := by
  constructor
  · intro c hc
    rcases he : engine (cropRoi img roi) with _ | out
    · rw [show ocr_roi engine img roi = "" from by unfold ocr_roi; rw [he]] at hc
      simp at hc
    · rw [ocr_roi_eq_match engine img roi out he] at hc
      rcases ht : out.txts with _ | ts
      · rw [ht] at hc
        simp at hc
      · rcases ts with _ | ⟨t0, ts'⟩
        · rw [ht] at hc
          simp at hc
        · rw [ht] at hc
          have hmem : c ∈ (String.join (t0 :: ts')).toList.filter pyIsDigit := by
            simpa [String.toList] using hc
          exact (List.mem_filter.mp hmem).2
  · intro h
    rcases he : engine (cropRoi img roi) with _ | out
    · unfold ocr_roi
      rw [he]
    · rw [ocr_roi_eq_match engine img roi out he]
      rcases ht : out.txts with _ | ts
      · rfl
      · rcases ts with _ | ⟨t0, ts'⟩
        · rfl
        · exfalso
          rcases h with h | h | h
          · rw [he] at h
            exact Option.some_ne_none out h
          · rw [he] at h
            rw [Option.some_bind] at h
            rw [ht] at h
            exact Option.some_ne_none _ h
          · rw [he] at h
            rw [Option.some_bind] at h
            rw [ht] at h
            simp at h

theorem ocr_roi_digits_witness :
    (fun _ : List (List Nat) => (none : Option RapidOCROutput))
        (cropRoi [[5]] (RoiRect.mk 0 0 0 0)) = none ∧
    ocr_roi (fun _ => none) [[5]] (RoiRect.mk 0 0 0 0) = "" :=
  ⟨rfl, (ocr_roi_digits (fun _ => none) [[5]] (RoiRect.mk 0 0 0 0)).2 (Or.inl rfl)⟩

/-! ## Confidence-gate lemmas -/

/-- C3: the gate compares the mean score of accepted detections against
the result-level threshold before any field parsing — a mean exactly at
the threshold is accepted (the field parser runs on the accepted
detections), a mean strictly below is rejected with `LowConfidence` for
every possible field parser, so no parsing is attempted regardless of
whether the text would otherwise parse. -/
theorem confidence_gate_boundary (α : Type) (boxCutoff threshold : ℚ)
    (dets : List TextBox) :
    (aggregateOf boxCutoff dets = threshold →
      ∀ parseField : List TextBox → Except ParseError α,
        confidenceGate boxCutoff threshold dets parseField
          = parseField (dets.filter (fun d => boxCutoff ≤ d.score))) ∧
    (aggregateOf boxCutoff dets < threshold →
      ∀ parseField : List TextBox → Except ParseError α,
        confidenceGate boxCutoff threshold dets parseField
          = Except.error ParseError.LowConfidence) := by
  constructor
  · intro h parseField
    show (if aggregateOf boxCutoff dets < threshold
          then Except.error ParseError.LowConfidence
          else parseField (dets.filter (fun d => boxCutoff ≤ d.score))) = _
    rw [if_neg (by rw [h]; exact lt_irrefl threshold)]
  · intro h parseField
    show (if aggregateOf boxCutoff dets < threshold
          then Except.error ParseError.LowConfidence
          else parseField (dets.filter (fun d => boxCutoff ≤ d.score))) = _
    rw [if_pos h]

theorem confidence_gate_boundary_witness :
    aggregateOf (1/2) [TextBox.mk [] "12" (3/4)] = (3/4 : ℚ) ∧
    confidenceGate (1/2) (3/4) [TextBox.mk [] "12" (3/4)]
        (fun _ => Except.ok (0 : Nat)) = Except.ok 0 ∧
    aggregateOf (1/2) [TextBox.mk [] "12" (1/2)] < (3/4 : ℚ) ∧
    confidenceGate (1/2) (3/4) [TextBox.mk [] "12" (1/2)]
        (fun _ => Except.ok (0 : Nat)) = Except.error ParseError.LowConfidence := by
  have h1 : aggregateOf (1/2) [TextBox.mk [] "12" (3/4)] = (3/4 : ℚ) := by
    norm_num [aggregateOf, List.filter]
  have h2 : aggregateOf (1/2) [TextBox.mk [] "12" (1/2)] < (3/4 : ℚ) := by
    norm_num [aggregateOf, List.filter]
  exact ⟨h1,
    (confidence_gate_boundary Nat (1/2) (3/4) _).1 h1 (fun _ => Except.ok 0),
    h2,
    (confidence_gate_boundary Nat (1/2) (3/4) _).2 h2 (fun _ => Except.ok 0)⟩

end ExpTrack
